import Mathlib

/-!
Verification of the sequential command runner (`Progress.execWithProgress`)
and the confirmation-guarded delete operations (`Component.del`,
`Storage.del`) of the vscode-openshift-tools extension, over a shallow
embedding in Lean 4.
-/

/-- One step of the sequential runner: a shell-command string and an
integer progress increment (`{command, increment}` in the source). -/
structure Step where
  command : String
  increment : Int
deriving Repr, DecidableEq, Inhabited

/-- The options record passed to the runner and through to the host
progress API: `{cancellable, location, title}`.  The display location is
an enumeration value in the host API; it is embedded as a `Nat`
(e.g. `ProgressLocation.Notification = 15`). -/
structure PrOptions where
  cancellable : Bool
  location : Nat
  title : String
deriving Repr, DecidableEq

/-- Outcome of one executor call: the promise returned by
`executor.execute(command)` either resolves or rejects with a message. -/
inductive ExecResult where
  | success
  | failure (msg : String)
deriving Repr, DecidableEq

/-- Observable trace of one invocation of the runner:
`calls` is the list of command strings passed to the executor, in
invocation order; `increments` is the list of progress increments
reported after each successful step, in order; `errorShown` is the
message passed to the host `showErrorMessage`, if any; `resolved`
records whether the promise returned by the runner resolves. -/
structure RunTrace where
  calls : List String
  increments : List Int
  errorShown : Option String
  resolved : Bool
deriving Repr, DecidableEq

/-- Modelled from the spec: the body of `Progress.execWithProgress`
(`src/util/progress.ts` is not present under `src/`; only its test and
its callers are).  Per the spec, the runner executes each step's command
through the injected executor in list order, waiting for each to finish
before starting the next; after each successful step it advances the
progress indicator by that step's increment, as given; on the first
failure it aborts the remaining steps and presents the failure's message
to the user, and the returned promise still resolves (the test awaits it
after a rejection).  The executor is embedded as a function of the
call's sequence number (the count of previously completed calls) and the
command string, so that stateful stub behaviour such as step-dependent
failure is expressible; `k` is the sequence number of the next call. -/
def runSteps (exec : Nat → String → ExecResult) : List Step → Nat → RunTrace
  | [], _ => { calls := [], increments := [], errorShown := none, resolved := true }
  | s :: rest, k =>
    match exec k s.command with
    | ExecResult.success =>
      let t := runSteps exec rest (k + 1)
      { calls := s.command :: t.calls
        increments := s.increment :: t.increments
        errorShown := t.errorShown
        resolved := t.resolved }
    | ExecResult.failure msg =>
      { calls := [s.command], increments := [], errorShown := some msg, resolved := true }

/-- Observable result of `Progress.execWithProgress`: the options passed
to each invocation of the host `withProgress` API, and the run trace
produced by the callback. -/
structure HostCalls where
  withProgressOptions : List PrOptions
  trace : RunTrace
deriving Repr, DecidableEq

/-- Modelled from the spec: `Progress.execWithProgress(options, steps,
executor)`.  It calls the host `withProgress` exactly once, handing it
the options unchanged, and runs the steps sequentially inside it. -/
def execWithProgress (options : PrOptions) (steps : List Step)
    (exec : Nat → String → ExecResult) : HostCalls :=
  { withProgressOptions := [options], trace := runSteps exec steps 0 }

/-- Instrumented variant of `runSteps` that records, for every executor
invocation, the pair of its sequence number (the count of previously
completed executor calls at the moment the call begins) and its command
argument. -/
def runStepsLog (exec : Nat → String → ExecResult) : List Step → Nat → List (Nat × String)
  | [], _ => []
  | s :: rest, k =>
    match exec k s.command with
    | ExecResult.success => (k, s.command) :: runStepsLog exec rest (k + 1)
    | ExecResult.failure _ => [(k, s.command)]

/-- If every executor call succeeds, the trace is fully determined:
the calls are the steps' commands in order, the reported increments are
the steps' increments in order, no error is shown, and the run
resolves. -/
theorem runSteps_success_eq (exec : Nat → String → ExecResult)
    (h : ∀ n c, exec n c = ExecResult.success) :
    ∀ (steps : List Step) (k : Nat),
    runSteps exec steps k =
      { calls := steps.map Step.command
        increments := steps.map Step.increment
        errorShown := none
        resolved := true } := by
  intro steps
  induction steps with
  | nil => intro k; rfl
  | cons s rest ih =>
    intro k
    simp [runSteps, h k s.command, ih (k + 1)]

/-- If the executor succeeds on its first `m` calls and fails on call
`m` (0-indexed) with message `msg`, the trace consists of the first
`m + 1` commands, the first `m` increments, the error `msg`, and the
run resolves. -/
theorem runSteps_fail_eq (exec : Nat → String → ExecResult) (msg : String) :
    ∀ (steps : List Step) (k m : Nat),
    m < steps.length →
    (∀ i, i < m → exec (k + i) ((steps.getD i default).command) = ExecResult.success) →
    exec (k + m) ((steps.getD m default).command) = ExecResult.failure msg →
    runSteps exec steps k =
      { calls := (steps.take (m + 1)).map Step.command
        increments := (steps.take m).map Step.increment
        errorShown := some msg
        resolved := true } := by
  intro steps
  induction steps with
  | nil =>
    intro k m hm _ _
    exact absurd hm (by simp)
  | cons s rest ih =>
    intro k m hm hpre hfail
    cases m with
    | zero =>
      have hf : exec k s.command = ExecResult.failure msg := by
        simpa using hfail
      simp [runSteps, hf]
    | succ m' =>
      have h0 : exec k s.command = ExecResult.success := by
        have := hpre 0 (Nat.succ_pos m')
        simpa using this
      have hm' : m' < rest.length := by
        simpa [Nat.succ_lt_succ_iff] using hm
      have hpre' : ∀ i, i < m' →
          exec ((k + 1) + i) ((rest.getD i default).command) = ExecResult.success := by
        intro i hi
        have := hpre (i + 1) (Nat.succ_lt_succ hi)
        have harith : k + (i + 1) = (k + 1) + i := by omega
        simpa [harith] using this
      have hfail' : exec ((k + 1) + m') ((rest.getD m' default).command)
          = ExecResult.failure msg := by
        have harith : k + (m' + 1) = (k + 1) + m' := by omega
        simpa [harith] using hfail
      simp [runSteps, h0, ih (k + 1) m' hm' hpre' hfail']

/-- A component shown in the explorer tree, flattened to the names the
delete command needs: `component.getName()`, `component.getParent().getName()`
(the application) and `component.getParent().getParent().getName()`
(the project). -/
structure ComponentItem where
  name : String
  appName : String
  projectName : String
deriving Repr, DecidableEq

/-- A storage item, flattened to the names the delete command needs:
`storage.getName()`, and the names of its parent component, that
component's application and that application's project. -/
structure StorageItem where
  name : String
  componentName : String
  appName : String
  projectName : String
deriving Repr, DecidableEq

/-- The user's interactions during `Component.del`: the outcome of each
quick-pick dialog (`none` = dismissed) and the answer to the
`showWarningMessage` confirmation (`none` = dismissed). -/
structure CompDelUI where
  pickProject : Option String
  pickApplication : Option String
  pickComponent : Option ComponentItem
  warningAnswer : Option String
deriving Repr, DecidableEq

/-- The user's interactions during `Storage.del`. -/
structure StorageDelUI where
  pickProject : Option String
  pickApplication : Option String
  pickComponent : Option String
  pickStorage : Option StorageItem
  warningAnswer : Option String
deriving Repr, DecidableEq

/-- Observable outcome of a delete operation: the CLI commands handed to
`odo.execute`, in order, and the settlement of the returned promise
(`Except.error` = rejection; `Except.ok none` = resolved to `null`;
`Except.ok (some s)` = resolved to the message `s`). -/
structure DelOutcome where
  executed : List String
  result : Except String (Option String)
deriving Repr

/-- `Component.del`'s selection phase: use the tree item when the command
was invoked on one; otherwise walk the quick-picks, each gated on the
previous one having produced a value. -/
def chooseComponent (treeItem : Option ComponentItem) (ui : CompDelUI) :
    Option ComponentItem :=
  match treeItem with
  | some t => some t
  | none =>
    match ui.pickProject with
    | none => none
    | some _ =>
      match ui.pickApplication with
      | none => none
      | some _ => ui.pickComponent

/-- `Component.del` (component.ts): after selecting a component, show the
confirmation warning; only on the exact answer `Yes` run
`odo delete <name> -f --app <app> --project <project>` through the
executor, resolving to a success message or rejecting with the wrapped
error; on any other answer, and when no component was selected, execute
nothing and resolve to `null`. -/
def componentDel (treeItem : Option ComponentItem) (ui : CompDelUI)
    (execOdo : String → Except String Unit) : DelOutcome :=
  match chooseComponent treeItem ui with
  | none => { executed := [], result := Except.ok none }
  | some comp =>
    if ui.warningAnswer = some "Yes" then
      let cmd := "odo delete " ++ comp.name ++ " -f --app " ++ comp.appName
        ++ " --project " ++ comp.projectName
      match execOdo cmd with
      | Except.ok _ =>
        { executed := [cmd]
          result := Except.ok (some ("Component \x27" ++ comp.name
            ++ "\x27 successfully deleted")) }
      | Except.error err =>
        { executed := [cmd]
          result := Except.error ("Failed to delete component with error \x27"
            ++ err ++ "\x27") }
    else { executed := [], result := Except.ok none }

/-- `Storage.del`'s selection phase: the tree item when present,
otherwise the chain of quick-picks, each gated on the previous one. -/
def chooseStorage (treeItem : Option StorageItem) (ui : StorageDelUI) :
    Option StorageItem :=
  match treeItem with
  | some t => some t
  | none =>
    match ui.pickProject with
    | none => none
    | some _ =>
      match ui.pickApplication with
      | none => none
      | some _ =>
        match ui.pickComponent with
        | none => none
        | some _ => ui.pickStorage

/-- `Storage.del` (storage.ts): after selecting a storage, show the
confirmation warning; only on the exact answer `Yes` run
`odo storage delete <name> -f --project <project> --app <app>
--component <component>` through the executor, resolving to a success
message or rejecting with the wrapped error; otherwise execute nothing
and resolve to `null`. -/
def storageDel (treeItem : Option StorageItem) (ui : StorageDelUI)
    (execOdo : String → Except String Unit) : DelOutcome :=
  match chooseStorage treeItem ui with
  | none => { executed := [], result := Except.ok none }
  | some st =>
    if ui.warningAnswer = some "Yes" then
      let cmd := "odo storage delete " ++ st.name ++ " -f --project "
        ++ st.projectName ++ " --app " ++ st.appName
        ++ " --component " ++ st.componentName
      match execOdo cmd with
      | Except.ok _ =>
        { executed := [cmd]
          result := Except.ok (some ("Storage \x27" ++ st.name
            ++ "\x27 from component \x27" ++ st.componentName
            ++ "\x27 successfully deleted")) }
      | Except.error err =>
        { executed := [cmd]
          result := Except.error ("Failed to delete storage with error \x27"
            ++ err ++ "\x27") }
    else { executed := [], result := Except.ok none }

/-- The options used throughout the test suite:
`{cancellable: false, location: Notification, title: "Testing Progress"}`. -/
def optsEx : PrOptions :=
  { cancellable := false, location := 15, title := "Testing Progress" }

/-- The two-step list of the test suite. -/
def stepsEx : List Step :=
  [{ command := "command one", increment := 50 },
   { command := "command two", increment := 50 }]

/-- An executor whose every call succeeds (the `resolves()` stub). -/
def execOk : Nat → String → ExecResult := fun _ _ => ExecResult.success

/-- An executor whose every call fails with `An error`
(the `rejects(errorMessage)` stub). -/
def execErr : Nat → String → ExecResult := fun _ _ => ExecResult.failure "An error"

/-- An executor pointwise equal to `execOk` but syntactically distinct. -/
def execOkIf : Nat → String → ExecResult :=
  fun n _ => if 0 ≤ n then ExecResult.success else ExecResult.failure "x"

/-- A step list whose increments sum to 142, not 100. -/
def stepsOdd : List Step :=
  [{ command := "a", increment := 30 },
   { command := "b", increment := 13 },
   { command := "c", increment := 99 }]

/-- C1: For every list of N steps in which every executor call succeeds,
`execWithProgress` invokes the injected executor exactly N times, in
list order, and the argument of the i-th invocation equals exactly the
command string of the i-th step. -/
theorem c1_success_calls_in_order (o : PrOptions) (steps : List Step)
    (exec : Nat → String → ExecResult)
    (h : ∀ n c, exec n c = ExecResult.success) :
    (execWithProgress o steps exec).trace.calls = steps.map Step.command := by
  simp [execWithProgress, runSteps_success_eq exec h steps 0]

/-- Witness for C1 at the test suite's inputs: two steps, a succeeding
executor, two calls with the two commands in order. -/
theorem c1_success_calls_in_order_witness :
    (execWithProgress optsEx stepsEx execOk).trace.calls
      = ["command one", "command two"] :=
  (c1_success_calls_in_order optsEx stepsEx execOk (fun _ _ => rfl)).trans rfl

/-- C2: If the executor call for step K (1-indexed) fails with message
`msg` and all earlier calls succeeded, the executor is invoked exactly K
times — the first K commands, in order, with no retry and no later step —
and the error reported to the user equals `msg` verbatim. -/
theorem c2_fail_at_step_K (o : PrOptions) (steps : List Step)
    (exec : Nat → String → ExecResult) (K : Nat) (msg : String)
    (hK1 : 1 ≤ K) (hK2 : K ≤ steps.length)
    (hpre : ∀ i, i < K - 1 →
      exec i ((steps.getD i default).command) = ExecResult.success)
    (hfail : exec (K - 1) ((steps.getD (K - 1) default).command)
      = ExecResult.failure msg) :
    (execWithProgress o steps exec).trace.calls
      = (steps.take K).map Step.command ∧
    (execWithProgress o steps exec).trace.errorShown = some msg := by
  have hm : K - 1 < steps.length := by omega
  have hpre0 : ∀ i, i < K - 1 →
      exec (0 + i) ((steps.getD i default).command) = ExecResult.success := by
    intro i hi
    simpa [Nat.zero_add] using hpre i hi
  have hfail0 : exec (0 + (K - 1)) ((steps.getD (K - 1) default).command)
      = ExecResult.failure msg := by
    simpa [Nat.zero_add] using hfail
  have h := runSteps_fail_eq exec msg steps 0 (K - 1) hm hpre0 hfail0
  have hK : K - 1 + 1 = K := by omega
  constructor
  · simp [execWithProgress, h, hK]
  · simp [execWithProgress, h]

/-- Witness for C2 at the test suite's failing scenario: the executor
rejects every call with `An error`, so step 1 fails; exactly one call is
made and the reported error is `An error`. -/
theorem c2_fail_at_step_K_witness :
    (execWithProgress optsEx stepsEx execErr).trace.calls = ["command one"] ∧
    (execWithProgress optsEx stepsEx execErr).trace.errorShown
      = some "An error" := by
  have h := c2_fail_at_step_K optsEx stepsEx execErr 1 "An error"
    (by decide) (by decide) (fun i hi => absurd hi (Nat.not_lt_zero i)) rfl
  exact ⟨h.1.trans rfl, h.2⟩

/-- Helper for C3: the instrumented log's sequence numbers are
consecutive from `k`, and its commands are exactly the trace's calls. -/
theorem runStepsLog_spec (exec : Nat → String → ExecResult)
    (steps : List Step) (k : Nat) :
    (runStepsLog exec steps k).map Prod.fst
      = List.range' k (runStepsLog exec steps k).length ∧
    (runStepsLog exec steps k).map Prod.snd = (runSteps exec steps k).calls := by
  induction steps generalizing k with
  | nil => simp [runStepsLog, runSteps]
  | cons s rest ih =>
    cases hex : exec k s.command with
    | success =>
      have h1 := (ih (k + 1)).1
      have h2 := (ih (k + 1)).2
      simp [runStepsLog, runSteps, hex, h1, h2, List.range']
    | failure msg => simp [runStepsLog, runSteps, hex, List.range']

/-- C3: Step execution is strictly sequential.  In the model an executor
invocation carries, as its sequence number, the count of executor calls
already completed when it begins; the i-th invocation of a run carries
number i.  Hence call i+1 begins only after calls 0..i have completed,
and at most one call is outstanding at a time; the logged commands agree
with the run's call trace. -/
theorem c3_sequential (o : PrOptions) (steps : List Step)
    (exec : Nat → String → ExecResult) :
    (runStepsLog exec steps 0).map Prod.fst
      = List.range' 0 (runStepsLog exec steps 0).length ∧
    (runStepsLog exec steps 0).map Prod.snd
      = (execWithProgress o steps exec).trace.calls :=
  runStepsLog_spec exec steps 0

/-- C4: After each successful step the progress indicator is advanced by
exactly that step's increment, as supplied: on an all-success run the
reported increments are the steps' increments, in order, with no
normalization (they need not sum to 100). -/
theorem c4_increments_as_given (o : PrOptions) (steps : List Step)
    (exec : Nat → String → ExecResult)
    (h : ∀ n c, exec n c = ExecResult.success) :
    (execWithProgress o steps exec).trace.increments
      = steps.map Step.increment := by
  simp [execWithProgress, runSteps_success_eq exec h steps 0]

/-- Witness for C4 on a step list whose increments sum to 142: the
increments are reported exactly as given. -/
theorem c4_increments_as_given_witness :
    (execWithProgress optsEx stepsOdd execOk).trace.increments
      = [30, 13, 99] :=
  (c4_increments_as_given optsEx stepsOdd execOk (fun _ _ => rfl)).trans rfl

/-- C5: If every step's executor call succeeds, the run resolves and no
error is surfaced (the progress indicator completes). -/
theorem c5_success_resolves (o : PrOptions) (steps : List Step)
    (exec : Nat → String → ExecResult)
    (h : ∀ n c, exec n c = ExecResult.success) :
    (execWithProgress o steps exec).trace.resolved = true ∧
    (execWithProgress o steps exec).trace.errorShown = none := by
  simp [execWithProgress, runSteps_success_eq exec h steps 0]

/-- Witness for C5 at the test suite's inputs. -/
theorem c5_success_resolves_witness :
    (execWithProgress optsEx stepsEx execOk).trace.resolved = true ∧
    (execWithProgress optsEx stepsEx execOk).trace.errorShown = none :=
  c5_success_resolves optsEx stepsEx execOk (fun _ _ => rfl)

/-- C6: The cancellable flag has no effect on execution: two runs
differing only in `options.cancellable` produce the identical trace
(same executor invocations, same increments, same error, same
settlement). -/
theorem c6_cancellable_no_effect (b1 b2 : Bool) (loc : Nat) (title : String)
    (steps : List Step) (exec : Nat → String → ExecResult) :
    (execWithProgress { cancellable := b1, location := loc, title := title }
        steps exec).trace
      = (execWithProgress { cancellable := b2, location := loc, title := title }
        steps exec).trace := rfl

/-- Helper for C7: the trace depends only on the executor's behaviour. -/
theorem runSteps_congr (e1 e2 : Nat → String → ExecResult)
    (h : ∀ n c, e1 n c = e2 n c) :
    ∀ (steps : List Step) (k : Nat), runSteps e1 steps k = runSteps e2 steps k := by
  intro steps
  induction steps with
  | nil => intro k; rfl
  | cons s rest ih =>
    intro k
    cases hex : e2 k s.command with
    | success => simp [runSteps, h k s.command, hex, ih (k + 1)]
    | failure msg => simp [runSteps, h k s.command, hex]

/-- C7: Invocations of the runner are independent and deterministic: it
is a pure function of its arguments, so two invocations with the same
options, the same step list, and executors of the same behaviour produce
the same host calls and the same trace, regardless of any earlier
invocations. -/
theorem c7_deterministic (o : PrOptions) (steps : List Step)
    (e1 e2 : Nat → String → ExecResult) (h : ∀ n c, e1 n c = e2 n c) :
    execWithProgress o steps e1 = execWithProgress o steps e2 := by
  simp [execWithProgress, runSteps_congr e1 e2 h steps 0]

/-- Witness for C7: two syntactically different executors of the same
behaviour yield identical results. -/
theorem c7_deterministic_witness :
    execWithProgress optsEx stepsEx execOk
      = execWithProgress optsEx stepsEx execOkIf :=
  c7_deterministic optsEx stepsEx execOk execOkIf
    (fun n c => by simp [execOk, execOkIf, Nat.zero_le])

/-- C8: When a step fails, the promise returned by the runner still
resolves; the failure is surfaced only through the error-message channel
and not as a rejection. -/
theorem c8_fail_still_resolves (o : PrOptions) (steps : List Step)
    (exec : Nat → String → ExecResult) (K : Nat) (msg : String)
    (hK1 : 1 ≤ K) (hK2 : K ≤ steps.length)
    (hpre : ∀ i, i < K - 1 →
      exec i ((steps.getD i default).command) = ExecResult.success)
    (hfail : exec (K - 1) ((steps.getD (K - 1) default).command)
      = ExecResult.failure msg) :
    (execWithProgress o steps exec).trace.resolved = true ∧
    (execWithProgress o steps exec).trace.errorShown = some msg := by
  have hm : K - 1 < steps.length := by omega
  have hpre0 : ∀ i, i < K - 1 →
      exec (0 + i) ((steps.getD i default).command) = ExecResult.success := by
    intro i hi
    simpa [Nat.zero_add] using hpre i hi
  have hfail0 : exec (0 + (K - 1)) ((steps.getD (K - 1) default).command)
      = ExecResult.failure msg := by
    simpa [Nat.zero_add] using hfail
  have h := runSteps_fail_eq exec msg steps 0 (K - 1) hm hpre0 hfail0
  constructor
  · simp [execWithProgress, h]
  · simp [execWithProgress, h]

/-- Witness for C8 at the test suite's failing scenario: the run
resolves and the error channel carries `An error`. -/
theorem c8_fail_still_resolves_witness :
    (execWithProgress optsEx stepsEx execErr).trace.resolved = true ∧
    (execWithProgress optsEx stepsEx execErr).trace.errorShown
      = some "An error" :=
  c8_fail_still_resolves optsEx stepsEx execErr 1 "An error"
    (by decide) (by decide) (fun i hi => absurd hi (Nat.not_lt_zero i)) rfl

/-- C9: Every invocation of the runner calls the host progress API
exactly once, passing the options through unchanged. -/
theorem c9_withProgress_once (o : PrOptions) (steps : List Step)
    (exec : Nat → String → ExecResult) :
    (execWithProgress o steps exec).withProgressOptions = [o] := rfl

/-- C10: `Component.del` and `Storage.del` are guarded by a confirmation
prompt: unless the warning is answered exactly `Yes`, no CLI command is
executed (the executor is never invoked) and the operation resolves to
`null`. -/
theorem c10_delete_requires_yes (treeC : Option ComponentItem)
    (cui : CompDelUI) (execC : String → Except String Unit)
    (treeS : Option StorageItem) (sui : StorageDelUI)
    (execS : String → Except String Unit)
    (hc : cui.warningAnswer ≠ some "Yes")
    (hs : sui.warningAnswer ≠ some "Yes") :
    ((componentDel treeC cui execC).executed = [] ∧
      (componentDel treeC cui execC).result = Except.ok none) ∧
    ((storageDel treeS sui execS).executed = [] ∧
      (storageDel treeS sui execS).result = Except.ok none) := by
  constructor
  · cases h : chooseComponent treeC cui with
    | none => simp [componentDel, h]
    | some comp => simp [componentDel, h, hc]
  · cases h : chooseStorage treeS sui with
    | none => simp [storageDel, h]
    | some st => simp [storageDel, h, hs]

/-- A component selected from the tree. -/
def compItemEx : ComponentItem :=
  { name := "comp1", appName := "app1", projectName := "proj1" }

/-- A storage item selected from the tree. -/
def storItemEx : StorageItem :=
  { name := "stor1", componentName := "comp1", appName := "app1"
    projectName := "proj1" }

/-- A user who answers `Cancel` to the component warning. -/
def cuiCancel : CompDelUI :=
  { pickProject := none, pickApplication := none, pickComponent := none
    warningAnswer := some "Cancel" }

/-- A user who answers `Cancel` to the storage warning. -/
def suiCancel : StorageDelUI :=
  { pickProject := none, pickApplication := none, pickComponent := none
    pickStorage := none, warningAnswer := some "Cancel" }

/-- An executor whose every call succeeds. -/
def execOdoOk : String → Except String Unit := fun _ => Except.ok ()

/-- Witness for C10: with the warning answered `Cancel`, neither delete
executes anything and both resolve to `null`. -/
theorem c10_delete_requires_yes_witness :
    ((componentDel (some compItemEx) cuiCancel execOdoOk).executed = [] ∧
      (componentDel (some compItemEx) cuiCancel execOdoOk).result
        = Except.ok none) ∧
    ((storageDel (some storItemEx) suiCancel execOdoOk).executed = [] ∧
      (storageDel (some storItemEx) suiCancel execOdoOk).result
        = Except.ok none) :=
  c10_delete_requires_yes (some compItemEx) cuiCancel execOdoOk
    (some storItemEx) suiCancel execOdoOk (by decide) (by decide)
